import Mathlib

/-!
A shallow embedding of `multienum.py`: the class `MultiEnum(int)` with the
class-level configuration `_members`, `_fields`, `_ignore_case`,
`_choice_fields`, `_choice_range`, the class method `_resolve_value`, the
constructor `__new__`, the dynamic attribute lookup `__getattr__`, and the
class method `_choices`.

Python integers are modelled as `Int`, tuples and lists as `List`, `None`
versus a defined table as `Option`, and raised exceptions as the error side
of `Except`.  Each distinct raise site of the source gets its own `PyError`
constructor; `PyError.pyclass` recovers the Python exception class raised
there (TypeError, AttributeError, ValueError or IndexError), which is what
the error-kind claims are about.  Exception message payloads are elided.
-/

namespace Multienum

/-- The Python exception class of a raised error. -/
inductive PyClass where
  | typeError
  | attributeError
  | valueError
  | indexError
deriving DecidableEq, Repr

/-- One constructor per raise site of `multienum.py`:
`typeErrorNoMembers` is the explicit raise at line 92 (no `_members` given at
definition), `typeErrorArgCount` the explicit raise at line 95 (creation takes
exactly one parameter), `typeErrorNotIterable` the implicit TypeError of
`tuple(cls._fields)` at line 102 when `_fields` is `None`,
`typeErrorNoneLen` the implicit TypeError of `len(cls._members)` when
`_members` is `None`, `attributeErrorNameNotFound` the explicit raise at
line 85 (enumeration name not in `_members`), `attributeErrorNoFields` the
explicit raise at line 112, `attributeErrorUnknownField` the explicit raise
at line 118, `valueErrorNotInTuple` the implicit ValueError of
`tuple.index` (lines 102, 103, 131), and `indexError` the implicit
IndexError of out-of-range sequence indexing. -/
inductive PyError where
  | typeErrorNoMembers
  | typeErrorArgCount
  | typeErrorNotIterable
  | typeErrorNoneLen
  | attributeErrorNameNotFound
  | attributeErrorNoFields
  | attributeErrorUnknownField
  | valueErrorNotInTuple
  | indexError
deriving DecidableEq, Repr

/-- The Python exception class raised at each raise site. -/
def PyError.pyclass : PyError → PyClass
  | .typeErrorNoMembers => .typeError
  | .typeErrorArgCount => .typeError
  | .typeErrorNotIterable => .typeError
  | .typeErrorNoneLen => .typeError
  | .attributeErrorNameNotFound => .attributeError
  | .attributeErrorNoFields => .attributeError
  | .attributeErrorUnknownField => .attributeError
  | .valueErrorNotInTuple => .valueError
  | .indexError => .indexError

/-- Models Python `str.casefold`: character-wise lowercasing.  Python
performs full Unicode case folding; this agrees with it on the ASCII member
names this repository uses, and the claims only concern variation of
character case. -/
def casefold (s : String) : String := String.mk (s.data.map Char.toLower)

/-- The class-level configuration of a concrete `MultiEnum` subclass:
`_members` (the member table, `None` on `MultiEnum` itself), `_fields`,
`_ignore_case`, and the optional `_choice_fields` / `_choice_range`
attributes read with `getattr` defaults in `_choices`. -/
structure EnumClass where
  _members : Option (List (List String))
  _fields : Option (List String)
  _ignore_case : Bool
  _choice_fields : Option (List String)
  _choice_range : Option (Nat × Nat)
deriving DecidableEq, Repr

/-- An instance of a concrete subclass: its integer value (the canonical
ordinal, an `int`, possibly negative) and the `_names` tuple cached by
`__new__`. -/
structure EnumInstance where
  ordinal : Int
  _names : List String
deriving DecidableEq, Repr

/-- A positional constructor input: an existing instance of the concrete
class under construction (`type(val) is cls`), a raw `int`, or a name
string. -/
inductive Value where
  | inst (x : EnumInstance)
  | int (n : Int)
  | str (s : String)
deriving DecidableEq, Repr

/-- The result of `_resolve_value`: either the instance passed through
unchanged, or a resolved integer ordinal. -/
inductive Resolved where
  | inst (x : EnumInstance)
  | int (n : Int)
deriving DecidableEq, Repr

/-- The result of `__new__`: `passthrough x` means the very object `x` that
was passed in is returned (the `type(retval) is not cls` guard at line 105
was false, so no new object is allocated — Python reference identity);
`fresh x` means a newly allocated instance `x`. -/
inductive NewResult where
  | passthrough (x : EnumInstance)
  | fresh (x : EnumInstance)
deriving DecidableEq, Repr

/-- The instance carried by a `NewResult`. -/
def NewResult.instance : NewResult → EnumInstance
  | .passthrough x => x
  | .fresh x => x

/-- First index at which the predicate holds: the Python idiom
`next(i for i in range(0, len(l)) if p(l[i]))` and the search of
`tuple.index`. -/
def findIndex (p : α → Bool) : List α → Option Nat
  | [] => none
  | a :: as => if p a then some 0 else (findIndex p as).map (· + 1)

/-- Python `seq.index(x)`: index of the first element equal to `x`, raising
ValueError when there is none (lines 102, 103, 131). -/
def tupleIndex [DecidableEq α] (xs : List α) (x : α) : Except PyError Nat :=
  match findIndex (fun y => decide (y = x)) xs with
  | some i => .ok i
  | none => .error .valueErrorNotInTuple

/-- Python `seq[n]` for a nonnegative index: IndexError when out of range. -/
def natGet (xs : List α) (n : Nat) : Except PyError α :=
  match xs.get? n with
  | some a => .ok a
  | none => .error .indexError

/-- Python `seq[i]` for an arbitrary `int` index: negative indices count
from the end (`seq[len + i]`); IndexError when out of range either way. -/
def pyGet (xs : List α) (i : Int) : Except PyError α :=
  let j : Int := if i < 0 then i + (xs.length : Int) else i
  if 0 ≤ j then
    match xs.get? j.toNat with
    | some a => .ok a
    | none => .error .indexError
  else .error .indexError

/-- Python `tuple(f(m) for m in l)`: evaluates `f` on every element in
order, propagating the first raised exception. -/
def tupleMap (f : α → Except PyError β) : List α → Except PyError (List β)
  | [] => .ok []
  | a :: as => do
    let b ← f a
    let bs ← tupleMap f as
    pure (b :: bs)

/-- The per-row test of the name-string scan in `_resolve_value`
(lines 77-83): `str(val).casefold() in [m.casefold() for m in row]` when
`_ignore_case` is set, else `str(val) in row`. -/
def rowMatch (cls : EnumClass) (s : String) (row : List String) : Bool :=
  if cls._ignore_case then (row.map casefold).any (fun m => m == casefold s)
  else row.any (fun m => m == s)

/-- `MultiEnum._resolve_value` (lines 68-88): pass an instance of the class
through unchanged; pass a raw `int` through as the ordinal; look a name
string up as the first row containing it, raising AttributeError when the
scan finds nothing (and TypeError from `len(None)` when `_members` is
undefined). -/
def _resolve_value (cls : EnumClass) (val : Value) : Except PyError Resolved :=
  match val with
  | .inst x => .ok (.inst x)
  | .int n => .ok (.int n)
  | .str s =>
    match cls._members with
    | none => .error .typeErrorNoneLen
    | some tbl =>
      match findIndex (rowMatch cls s) tbl with
      | some i => .ok (.int i)
      | none => .error .attributeErrorNameNotFound

/-- Lines 105-108 of `__new__`: an instance resolved by pass-through is
returned as-is; an integer ordinal allocates a fresh instance and caches
`tuple(cls._members[int(retval)])` as its `_names`. -/
def build (tbl : List (List String)) (r : Resolved) : Except PyError NewResult :=
  match r with
  | .inst x => .ok (.passthrough x)
  | .int n => do
    let row ← pyGet tbl n
    .ok (.fresh ⟨n, row⟩)

/-- `MultiEnum.__new__` (lines 90-108).  `args` are the positional inputs,
`kwargs` the keyword inputs (a Python dict: keys unique; field values
modelled as strings, the only case the table can ever match).  Checks
`_members`, then the exactly-one-parameter constraint, then resolves the
single input: a positional input through `_resolve_value`, a keyword input
through `tuple(cls._fields).index(key)` and a scan of that column. -/
def new (cls : EnumClass) (args : List Value) (kwargs : List (String × String)) :
    Except PyError NewResult :=
  match cls._members with
  | none => .error .typeErrorNoMembers
  | some tbl =>
    if args.length + kwargs.length ≠ 1 then .error .typeErrorArgCount
    else
      match args, kwargs with
      | [a], [] => do
        let r ← _resolve_value cls a
        build tbl r
      | [], [(key, v)] =>
        match cls._fields with
        | none => .error .typeErrorNotIterable
        | some fs => do
          let findex ← tupleIndex fs key
          let col ← tupleMap (fun m => natGet m findex) tbl
          let r ← tupleIndex col v
          build tbl (.int (r : Int))
      | _, _ => .error .typeErrorArgCount

/-- `MultiEnum.__getattr__` (lines 110-120): field access by label on an
instance.  AttributeError when `_fields` is undefined or the label is not
among them; otherwise the cached row entry at the field column. -/
def getattr (cls : EnumClass) (self : EnumInstance) (key : String) :
    Except PyError String :=
  match cls._fields with
  | none => .error .attributeErrorNoFields
  | some fs =>
    match findIndex (fun f => f == key) fs with
    | some index => natGet self._names index
    | none => .error .attributeErrorUnknownField

/-- A selector or field key inside `_choices`: line 126 substitutes the
tuple `(0, 1)` for a falsy `_fields`, so the working field list mixes the
integers 0, 1 with field-name strings. -/
inductive FKey where
  | nat (n : Nat)
  | str (s : String)
deriving DecidableEq, Repr

/-- An entry of a choice tuple: the `_enum` selector contributes the integer
ordinal, a field selector contributes a name string. -/
inductive ChoiceVal where
  | int (n : Nat)
  | str (s : String)
deriving DecidableEq, Repr

/-- Line 126: `fields = cls._fields or (0, 1)`. -/
def effFields (cls : EnumClass) : List FKey :=
  match cls._fields with
  | none => [.nat 0, .nat 1]
  | some [] => [.nat 0, .nat 1]
  | some fs => fs.map .str

/-- Line 124: `getattr(cls, '_choice_range', (0, len(cls._members)))`. -/
def effRange (cls : EnumClass) (tbl : List (List String)) : Nat × Nat :=
  cls._choice_range.getD (0, tbl.length)

/-- Line 127: `getattr(cls, '_choice_fields', (fields[0], fields[1]))`.
The default tuple is evaluated eagerly — `fields[1]` can raise IndexError
even when `_choice_fields` is defined. -/
def effChoiceFields (cls : EnumClass) : Except PyError (List FKey) := do
  let F := effFields cls
  let f0 ← natGet F 0
  let f1 ← natGet F 1
  pure (match cls._choice_fields with
        | some cfs => cfs.map FKey.str
        | none => [f0, f1])

/-- Lines 128-132: the series appended for one selector — the ordinal range
for the special selector `_enum`, else the column of the member table at the
index of the selector in the working field list. -/
def seriesFor (tbl : List (List String)) (F : List FKey) (f : FKey) :
    Except PyError (List ChoiceVal) :=
  if f = .str "_enum" then .ok ((List.range tbl.length).map .int)
  else do
    let ind ← tupleIndex F f
    let col ← tupleMap (fun m => natGet m ind) tbl
    pure (col.map ChoiceVal.str)

/-- Python `seq[a:b]` for nonnegative bounds (clamping slice). -/
def pySlice (xs : List α) (a b : Nat) : List α := (xs.take b).drop a

/-- `MultiEnum._choices` (lines 122-133): zip the slices of the two selector
series over the configured range. -/
def _choices (cls : EnumClass) : Except PyError (List (ChoiceVal × ChoiceVal)) :=
  match cls._members with
  | none => .error .typeErrorNoneLen
  | some tbl => do
    let (rs, re) := effRange cls tbl
    let cf ← effChoiceFields cls
    let series ← tupleMap (seriesFor tbl (effFields cls)) cf
    let s0 ← natGet series 0
    let s1 ← natGet series 1
    pure (List.zip (pySlice s0 rs re) (pySlice s1 rs re))

/-- The member table of the `SampleEnum` subclass of the module docstring
(lines 21-23). -/
def SampleMembers : List (List String) :=
  [["zero", "zip", "zero", "cero"],
   ["one", "ace", "une", "uno"],
   ["two", "deuce", "deux", "dos"]]

/-- The `SampleEnum` subclass of the module docstring (lines 20-24). -/
def SampleEnum : EnumClass :=
  { _members := some SampleMembers
  , _fields := some ["english", "slang", "french", "spanish"]
  , _ignore_case := false
  , _choice_fields := none
  , _choice_range := none }

/-- The `SampleChoicesEnum` subclass of the module docstring (lines 57-59). -/
def SampleChoicesEnum : EnumClass :=
  { SampleEnum with
    _choice_fields := some ["_enum", "french"]
  , _choice_range := some (1, 3) }

/-- The member table of the `TestEnum` subclass of `test_multienum.py`
(lines 11-16). -/
def TestMembers : List (List String) :=
  [["zero", "none", "zilch"],
   ["one", "single", "uno"],
   ["two", "deuce", "a couple"],
   ["three", "a few", "trio"]]

/-- The `TestEnum` subclass of `test_multienum.py` (lines 10-17). -/
def TestEnum : EnumClass :=
  { _members := some TestMembers
  , _fields := some ["first", "second"]
  , _ignore_case := false
  , _choice_fields := none
  , _choice_range := none }

/-- The `TestEnumIgnoreCase` subclass of `test_multienum.py` (lines 88-89). -/
def TestEnumIgnoreCase : EnumClass :=
  { TestEnum with _ignore_case := true }

/-- The `EmptyEnum` subclass of `test_multienum.py` (lines 7-8): no
`_members` defined. -/
def EmptyEnum : EnumClass :=
  { _members := none
  , _fields := none
  , _ignore_case := false
  , _choice_fields := none
  , _choice_range := none }

/-! ### Helper lemmas -/

theorem except_bind_ok {α β : Type} (a : α) (f : α → Except PyError β) :
    (Except.ok a >>= f) = f a := rfl

theorem except_bind_error {α β : Type} (e : PyError) (f : α → Except PyError β) :
    ((Except.error e : Except PyError α) >>= f) = Except.error e := rfl

theorem findIndex_eq_none {α : Type} {p : α → Bool} {l : List α}
    (h : ∀ x ∈ l, p x = false) : findIndex p l = none := by
  induction l with
  | nil => rfl
  | cons a as ih =>
    have ha : p a = false := h a (List.mem_cons_self a as)
    have has : findIndex p as = none :=
      ih (fun x hx => h x (List.mem_cons_of_mem a hx))
    simp [findIndex, ha, has]

theorem findIndex_eq_some {α : Type} {p : α → Bool} {l : List α} {i : Nat} {a : α}
    (ha : l.get? i = some a) (hp : p a = true)
    (hmin : ∀ j b, j < i → l.get? j = some b → p b = false) :
    findIndex p l = some i := by
  induction l generalizing i with
  | nil => simp at ha
  | cons x xs ih =>
    cases i with
    | zero =>
      have hx : x = a := by simpa using ha
      subst hx
      simp [findIndex, hp]
    | succ k =>
      have hx : p x = false := hmin 0 x (Nat.succ_pos k) rfl
      have hxs : findIndex p xs = some k :=
        ih (by simpa using ha)
          (fun j b hj hb => hmin (j + 1) b (Nat.succ_lt_succ hj) (by simpa using hb))
      simp [findIndex, hx, hxs]

theorem rowMatch_of_mem {cls : EnumClass} {s : String} {row : List String}
    (h : s ∈ row) : rowMatch cls s row = true := by
  unfold rowMatch
  by_cases hc : cls._ignore_case
  · rw [if_pos hc, List.any_eq_true]
    exact ⟨casefold s, List.mem_map_of_mem casefold h, by simp⟩
  · rw [if_neg hc, List.any_eq_true]
    exact ⟨s, h, by simp⟩

theorem rowMatch_ci_of_exists {cls : EnumClass} (hc : cls._ignore_case = true)
    {s : String} {row : List String} (h : ∃ m ∈ row, casefold m = casefold s) :
    rowMatch cls s row = true := by
  obtain ⟨m, hm, hcf⟩ := h
  unfold rowMatch
  rw [if_pos hc, List.any_eq_true]
  exact ⟨casefold m, List.mem_map_of_mem casefold hm, by simp [hcf]⟩

theorem rowMatch_eq_false_cs {cls : EnumClass} (hc : cls._ignore_case = false)
    {s : String} {row : List String} (h : s ∉ row) :
    rowMatch cls s row = false := by
  unfold rowMatch
  rw [if_neg (by simp [hc]), List.any_eq_false]
  intro m hm
  simp only [beq_iff_eq]
  intro heq
  exact h (heq ▸ hm)

theorem rowMatch_eq_false_ci {cls : EnumClass} (hc : cls._ignore_case = true)
    {s : String} {row : List String} (h : ∀ m ∈ row, casefold m ≠ casefold s) :
    rowMatch cls s row = false := by
  unfold rowMatch
  rw [if_pos hc, List.any_eq_false]
  intro m hm
  simp only [beq_iff_eq]
  obtain ⟨m0, hm0, rfl⟩ := List.mem_map.mp hm
  exact h m0 hm0

theorem pyGet_ofNat {α : Type} {xs : List α} {n : Nat} {a : α}
    (h : xs.get? n = some a) : pyGet xs (n : Int) = .ok a := by
  have h' : xs[n]? = some a := by rw [← List.get?_eq_getElem?]; exact h
  have h1 : ¬ ((n : Int) < 0) := by omega
  have h2 : (0 : Int) ≤ (n : Int) := by omega
  simp [pyGet, h1, h2, h']

theorem pyGet_ofNat_err {α : Type} {xs : List α} {n : Nat}
    (h : xs.length ≤ n) : pyGet xs (n : Int) = .error .indexError := by
  have h1 : ¬ ((n : Int) < 0) := by omega
  have hn : xs[n]? = none := by
    rw [← List.get?_eq_getElem?]; exact List.get?_eq_none.mpr h
  have h2 : (0 : Int) ≤ (n : Int) := by omega
  simp [pyGet, h1, h2, hn]

theorem pyGet_neg {α : Type} {xs : List α} {n : Nat} (h0 : 0 < n)
    (hn : n ≤ xs.length) {a : α} (h : xs.get? (xs.length - n) = some a) :
    pyGet xs (-(n : Int)) = .ok a := by
  have h' : xs[xs.length - n]? = some a := by
    rw [← List.get?_eq_getElem?]; exact h
  have h1 : (-(n : Int)) < 0 := by omega
  have h2 : (0 : Int) ≤ -(n : Int) + (xs.length : Int) := by omega
  have h3 : (-(n : Int) + (xs.length : Int)).toNat = xs.length - n := by omega
  simp [pyGet, h1, h2, h3, h']

theorem pyGet_ok_bounds {α : Type} {xs : List α} {i : Int} {a : α}
    (h : pyGet xs i = .ok a) :
    -(xs.length : Int) ≤ i ∧ i < (xs.length : Int) := by
  by_cases hi : i < 0
  · simp only [pyGet, hi, if_true] at h
    by_cases h2 : (0 : Int) ≤ i + (xs.length : Int)
    · simp only [h2, if_true] at h
      cases hg : xs.get? (i + (xs.length : Int)).toNat with
      | none => rw [hg] at h; exact absurd h (by simp)
      | some b =>
        have hlt : (i + (xs.length : Int)).toNat < xs.length :=
          (List.get?_eq_some.mp hg).1
        omega
    · simp [h2] at h
  · simp only [pyGet, hi, if_false] at h
    have h2 : (0 : Int) ≤ i := by omega
    simp only [h2, if_true] at h
    cases hg : xs.get? i.toNat with
    | none => rw [hg] at h; exact absurd h (by simp)
    | some b =>
      have hlt : i.toNat < xs.length := (List.get?_eq_some.mp hg).1
      omega

theorem tupleMap_ok_length {α β : Type} {f : α → Except PyError β} {l : List α}
    {l2 : List β} (h : tupleMap f l = .ok l2) : l2.length = l.length := by
  induction l generalizing l2 with
  | nil =>
    simp only [tupleMap] at h
    cases h
    rfl
  | cons a as ih =>
    simp only [tupleMap] at h
    cases hfa : f a with
    | error e => rw [hfa, except_bind_error] at h; exact absurd h (by simp)
    | ok b =>
      rw [hfa, except_bind_ok] at h
      cases hrest : tupleMap f as with
      | error e => rw [hrest, except_bind_error] at h; exact absurd h (by simp)
      | ok bs =>
        rw [hrest, except_bind_ok] at h
        cases h
        simp [ih hrest]

theorem natGet_eq_ok {α : Type} {xs : List α} {n : Nat} (h : n < xs.length)
    (d : α) : natGet xs n = .ok (xs.getD n d) := by
  have hg : xs.get? n = some (xs.get ⟨n, h⟩) := List.get?_eq_get h
  simp [natGet, hg, List.getD_eq_getElem?_getD, ← List.get?_eq_getElem?]

theorem tupleMap_natGet {tbl : List (List String)} {ind : Nat}
    (h : ∀ row ∈ tbl, ind < row.length) :
    tupleMap (fun m => natGet m ind) tbl =
      .ok (tbl.map (fun m => m.getD ind "")) := by
  induction tbl with
  | nil => rfl
  | cons r rs ih =>
    have hr : natGet r ind = .ok (r.getD ind "") :=
      natGet_eq_ok (h r (List.mem_cons_self r rs)) ""
    have hrs : tupleMap (fun m => natGet m ind) rs =
        .ok (rs.map (fun m => m.getD ind "")) :=
      ih (fun row hrow => h row (List.mem_cons_of_mem r hrow))
    simp only [tupleMap, hr, hrs, except_bind_ok]
    rfl

theorem seriesFor_ok_length {tbl : List (List String)} {F : List FKey}
    {f : FKey} {c : List ChoiceVal} (h : seriesFor tbl F f = .ok c) :
    c.length = tbl.length := by
  unfold seriesFor at h
  by_cases hf : f = .str "_enum"
  · rw [if_pos hf] at h
    cases h
    simp
  · rw [if_neg hf] at h
    cases hi : tupleIndex F f with
    | error e => rw [hi, except_bind_error] at h; exact absurd h (by simp)
    | ok ind =>
      rw [hi, except_bind_ok] at h
      cases hc : tupleMap (fun m => natGet m ind) tbl with
      | error e => rw [hc, except_bind_error] at h; exact absurd h (by simp)
      | ok col =>
        rw [hc, except_bind_ok] at h
        cases h
        simp [tupleMap_ok_length hc]

theorem pySlice_length {α : Type} {xs : List α} {a b : Nat}
    (hb : b ≤ xs.length) : (pySlice xs a b).length = b - a := by
  simp only [pySlice, List.length_drop, List.length_take]
  omega

theorem pySlice_get? {α : Type} {xs : List α} {a b k : Nat} (h : a + k < b) :
    (pySlice xs a b).get? k = xs.get? (a + k) := by
  simp only [pySlice, List.get?_eq_getElem?, List.getElem?_drop,
    List.getElem?_take]
  rw [if_pos (by omega)]

/-! ### Reduction lemmas for `new` -/

theorem new_no_members {cls : EnumClass} (hm : cls._members = none)
    (args : List Value) (kwargs : List (String × String)) :
    new cls args kwargs = .error .typeErrorNoMembers := by
  simp [new, hm]

theorem new_arg_count {cls : EnumClass} {tbl : List (List String)}
    (hm : cls._members = some tbl) {args : List Value}
    {kwargs : List (String × String)}
    (h : args.length + kwargs.length ≠ 1) :
    new cls args kwargs = .error .typeErrorArgCount := by
  simp only [new, hm]
  rw [if_pos h]

theorem new_single_arg {cls : EnumClass} {tbl : List (List String)}
    (hm : cls._members = some tbl) (a : Value) :
    new cls [a] [] = _resolve_value cls a >>= build tbl := by
  simp [new, hm]

theorem new_single_kwarg {cls : EnumClass} {tbl : List (List String)}
    {fs : List String} (hm : cls._members = some tbl)
    (hf : cls._fields = some fs) (key v : String) :
    new cls [] [(key, v)] = (do
      let findex ← tupleIndex fs key
      let col ← tupleMap (fun m => natGet m findex) tbl
      let r ← tupleIndex col v
      build tbl (.int (r : Int))) := by
  simp [new, hm, hf]

theorem new_single_kwarg_no_fields {cls : EnumClass}
    {tbl : List (List String)} (hm : cls._members = some tbl)
    (hf : cls._fields = none) (key v : String) :
    new cls [] [(key, v)] = .error .typeErrorNotIterable := by
  simp [new, hm, hf]

theorem build_ok_fresh {tbl : List (List String)} {r : Resolved}
    {x : EnumInstance} (h : build tbl r = .ok (.fresh x)) :
    pyGet tbl x.ordinal = .ok x._names := by
  cases r with
  | inst y => simp [build] at h
  | int n =>
    simp only [build] at h
    cases hg : pyGet tbl n with
    | error e => rw [hg, except_bind_error] at h; exact absurd h (by simp)
    | ok row =>
      rw [hg, except_bind_ok] at h
      injection h with h1
      injection h1 with h2
      rw [← h2]
      exact hg

/-! ### Claim theorems -/

/-- C3: for every existing instance `x` of a concrete enumeration type (a
type with a member table defined), constructing with `x` as the single input
returns `x` itself by identity: `__new__` skips the allocation at lines
105-108 and hands back the very object that was passed in, as witnessed by
the `passthrough` result. -/
theorem c3_passthrough_identity (cls : EnumClass) (tbl : List (List String))
    (hm : cls._members = some tbl) (x : EnumInstance) :
    new cls [Value.inst x] [] = .ok (.passthrough x) := by
  rw [new_single_arg hm]
  rfl

/-- Witness for C3 at `TestEnum(TestEnum(2))` (the `test_idempotent` case). -/
theorem c3_witness :
    new TestEnum [Value.inst ⟨2, ["two", "deuce", "a couple"]⟩] [] =
      .ok (.passthrough ⟨2, ["two", "deuce", "a couple"]⟩) :=
  c3_passthrough_identity TestEnum TestMembers rfl
    ⟨2, ["two", "deuce", "a couple"]⟩

/-- C4: on a type with a defined member table (otherwise the `_members`
check at lines 91-92 fires first, see C5), every constructor call whose
total number of positional plus keyword inputs differs from one fails with
the InvalidArguments error, the TypeError raised at lines 94-96. -/
theorem c4_exactly_one_argument (cls : EnumClass) (tbl : List (List String))
    (hm : cls._members = some tbl) (args : List Value)
    (kwargs : List (String × String))
    (h : args.length + kwargs.length ≠ 1) :
    new cls args kwargs = .error .typeErrorArgCount :=
  new_arg_count hm h

/-- Witness for C4 at `TestEnum(2, "two")` (the `test_multi_args` case) and
at `TestEnum()`. -/
theorem c4_witness :
    new TestEnum [Value.int 2, Value.str "two"] [] =
      .error .typeErrorArgCount ∧
    new TestEnum [] [] = .error .typeErrorArgCount :=
  ⟨c4_exactly_one_argument TestEnum TestMembers rfl
      [Value.int 2, Value.str "two"] [] (by decide),
   c4_exactly_one_argument TestEnum TestMembers rfl [] [] (by decide)⟩

/-- C5: on a type whose member table is undefined, construction fails with
the UndefinedEnumeration error (the TypeError raised at lines 91-92)
regardless of the inputs: the `_members` check precedes every other step of
`__new__`. -/
theorem c5_undefined_enumeration (cls : EnumClass)
    (hm : cls._members = none) (args : List Value)
    (kwargs : List (String × String)) :
    new cls args kwargs = .error .typeErrorNoMembers :=
  new_no_members hm args kwargs

/-- Witness for C5 at `EmptyEnum("bogus")` (the `test_empty_multienum`
case) and at an argument-count that would otherwise also be rejected. -/
theorem c5_witness :
    new EmptyEnum [Value.str "bogus"] [] = .error .typeErrorNoMembers ∧
    new EmptyEnum [] [] = .error .typeErrorNoMembers :=
  ⟨c5_undefined_enumeration EmptyEnum rfl [Value.str "bogus"] [],
   c5_undefined_enumeration EmptyEnum rfl [] []⟩

/-- C2 counterexample: constructing `TestEnum(-1)` succeeds — the raw
integer is adopted as the ordinal with no range validation — and produces
an instance whose ordinal `-1` is not a valid row index of the 4-row member
table (the row indices are 0, 1, 2, 3), refuting the parenthetical of the
claim; the cached tuple is the row Python indexes at `len - 1 = 3`. -/
theorem c2_counterexample :
    new TestEnum [Value.int (-1)] [] =
      .ok (.fresh ⟨-1, ["three", "a few", "trio"]⟩) ∧
    (∀ i : Nat, i < 4 → ((-1 : Int) ≠ (i : Int))) ∧
    TestMembers.length = 4 := by
  refine ⟨by rfl, by decide, by rfl⟩

/-- C2 (amended): every successful construction that allocates a new
instance caches as its name tuple exactly the member-table row that Python
indexing selects at the instance's ordinal — which therefore lies in
`[-len, len)`, negative ordinals denoting row `len + ordinal`.  (A
pass-through construction returns the existing instance unchanged and
allocates nothing, see C3.) -/
theorem c2_cached_names (cls : EnumClass) (tbl : List (List String))
    (hm : cls._members = some tbl) (args : List Value)
    (kwargs : List (String × String)) (x : EnumInstance)
    (h : new cls args kwargs = .ok (.fresh x)) :
    pyGet tbl x.ordinal = .ok x._names ∧
    -(tbl.length : Int) ≤ x.ordinal ∧ x.ordinal < (tbl.length : Int) := by
  have hmain : pyGet tbl x.ordinal = .ok x._names := by
    match args, kwargs with
    | [], [] =>
      rw [new_arg_count hm (by decide)] at h
      exact absurd h (by simp)
    | [a], [] =>
      rw [new_single_arg hm] at h
      cases hr : _resolve_value cls a with
      | error e => rw [hr, except_bind_error] at h; exact absurd h (by simp)
      | ok r =>
        rw [hr, except_bind_ok] at h
        exact build_ok_fresh h
    | [], [(key, v)] =>
      cases hf : cls._fields with
      | none =>
        rw [new_single_kwarg_no_fields hm hf] at h
        exact absurd h (by simp)
      | some fs =>
        rw [new_single_kwarg hm hf] at h
        cases h1 : tupleIndex fs key with
        | error e => rw [h1, except_bind_error] at h; exact absurd h (by simp)
        | ok findex =>
          rw [h1, except_bind_ok] at h
          cases h2 : tupleMap (fun m => natGet m findex) tbl with
          | error e =>
            rw [h2, except_bind_error] at h
            exact absurd h (by simp)
          | ok col =>
            rw [h2, except_bind_ok] at h
            cases h3 : tupleIndex col v with
            | error e =>
              rw [h3, except_bind_error] at h
              exact absurd h (by simp)
            | ok r =>
              rw [h3, except_bind_ok] at h
              exact build_ok_fresh h
    | [], kv1 :: kv2 :: kws =>
      rw [new_arg_count hm (by simp)] at h
      exact absurd h (by simp)
    | a :: args', kv :: kws =>
      rw [new_arg_count hm (by simp; omega)] at h
      exact absurd h (by simp)
    | a :: b :: args', [] =>
      rw [new_arg_count hm (by simp)] at h
      exact absurd h (by simp)
  obtain ⟨hlo, hhi⟩ := pyGet_ok_bounds hmain
  exact ⟨hmain, hlo, hhi⟩

/-- Witness for C2 at `TestEnum(second="deuce")` (the `test_kwarg` case),
which constructs the fresh instance `(2, row 2)`. -/
theorem c2_witness :
    pyGet TestMembers
        (EnumInstance.ordinal ⟨2, ["two", "deuce", "a couple"]⟩) =
      .ok (EnumInstance._names ⟨2, ["two", "deuce", "a couple"]⟩) ∧
    -(TestMembers.length : Int) ≤
        EnumInstance.ordinal ⟨2, ["two", "deuce", "a couple"]⟩ ∧
    EnumInstance.ordinal ⟨2, ["two", "deuce", "a couple"]⟩ <
      (TestMembers.length : Int) :=
  c2_cached_names TestEnum TestMembers rfl [] [("second", "deuce")]
    ⟨2, ["two", "deuce", "a couple"]⟩ (by rfl)

/-- C10: constructing from a raw integer performs no range validation.  A
nonnegative integer at least the table length fails with the IndexError of
`cls._members[int(retval)]` at line 107, which is none of the raise sites
of the four specified error kinds (UndefinedEnumeration, InvalidArguments,
NameNotFound, UnknownField); a negative integer `-n` with `n ≤ len`
succeeds, keeping the negative ordinal and caching the row at index
`len - n`. -/
theorem c10_no_range_validation (cls : EnumClass) (tbl : List (List String))
    (hm : cls._members = some tbl) :
    (∀ n : Nat, tbl.length ≤ n →
      new cls [Value.int (n : Int)] [] = .error .indexError) ∧
    (∀ n : Nat, 0 < n → n ≤ tbl.length → ∀ row,
      tbl.get? (tbl.length - n) = some row →
      new cls [Value.int (-(n : Int))] [] = .ok (.fresh ⟨-(n : Int), row⟩)) ∧
    (PyError.indexError ≠ .typeErrorNoMembers ∧
     PyError.indexError ≠ .typeErrorArgCount ∧
     PyError.indexError ≠ .attributeErrorNameNotFound ∧
     PyError.indexError ≠ .attributeErrorUnknownField ∧
     PyError.indexError ≠ .attributeErrorNoFields) := by
  refine ⟨?_, ?_, by decide⟩
  · intro n hn
    rw [new_single_arg hm]
    simp [_resolve_value, build, pyGet_ofNat_err hn, except_bind_ok,
      except_bind_error]
  · intro n h0 hn row hrow
    rw [new_single_arg hm]
    simp [_resolve_value, build, pyGet_neg h0 hn hrow, except_bind_ok]

/-- Witness for C10 at `TestEnum(10)` (IndexError past the 4-row table) and
`TestEnum(-1)` (succeeds with ordinal `-1` and the names of row 3). -/
theorem c10_witness :
    new TestEnum [Value.int ((10 : Nat) : Int)] [] = .error .indexError ∧
    new TestEnum [Value.int (-((1 : Nat) : Int))] [] =
      .ok (.fresh ⟨-((1 : Nat) : Int), ["three", "a few", "trio"]⟩) := by
  have h := c10_no_range_validation TestEnum TestMembers rfl
  exact ⟨h.1 10 (by decide),
    h.2.1 1 (by decide) (by decide) ["three", "a few", "trio"] (by rfl)⟩

/-- C6 counterexample: an unmatched positional name string fails with the
AttributeError of lines 84-86, but an unmatched field value on the keyword
path fails with the ValueError of `tuple.index` at line 103 — a different
Python exception class, so the two resolution paths do not share one error
kind. -/
theorem c6_counterexample :
    new TestEnum [Value.str "fifteen"] [] =
      .error .attributeErrorNameNotFound ∧
    new TestEnum [] [("second", "fifteen")] = .error .valueErrorNotInTuple ∧
    PyError.attributeErrorNameNotFound.pyclass ≠
      PyError.valueErrorNotInTuple.pyclass := by
  refine ⟨by rfl, by rfl, by decide⟩

/-- C6 (amended): a positional name string matching no row fails with the
NameNotFound AttributeError of lines 84-86; a field-keyword value (with a
field label present in the field list and every row long enough) matching
no entry of that column fails instead with a ValueError from
`tuple.index` — a different error kind from the positional path. -/
theorem c6_name_not_found_kinds (cls : EnumClass) (tbl : List (List String))
    (hm : cls._members = some tbl) :
    (∀ s, (∀ row ∈ tbl, rowMatch cls s row = false) →
      new cls [Value.str s] [] = .error .attributeErrorNameNotFound) ∧
    (∀ key v fs fi col, cls._fields = some fs →
      findIndex (fun y => decide (y = key)) fs = some fi →
      tupleMap (fun m => natGet m fi) tbl = .ok col →
      (∀ c ∈ col, c ≠ v) →
      new cls [] [(key, v)] = .error .valueErrorNotInTuple) := by
  constructor
  · intro s hrows
    rw [new_single_arg hm]
    have hnone : findIndex (rowMatch cls s) tbl = none :=
      findIndex_eq_none hrows
    simp [_resolve_value, hm, hnone, except_bind_error]
  · intro key v fs fi col hf hfi hcol hne
    rw [new_single_kwarg hm hf]
    have h1 : tupleIndex fs key = .ok fi := by simp [tupleIndex, hfi]
    have hvnone : findIndex (fun y => decide (y = v)) col = none :=
      findIndex_eq_none (fun c hc => by simp [hne c hc])
    have h2 : tupleIndex col v = .error .valueErrorNotInTuple := by
      simp [tupleIndex, hvnone]
    simp only [h1, except_bind_ok, hcol, h2, except_bind_error]

/-- Witness for C6 at `TestEnum("unknown")` and
`TestEnum(second="unknown")`. -/
theorem c6_witness :
    new TestEnum [Value.str "unknown"] [] =
      .error .attributeErrorNameNotFound ∧
    new TestEnum [] [("second", "unknown")] =
      .error .valueErrorNotInTuple := by
  have h := c6_name_not_found_kinds TestEnum TestMembers rfl
  exact ⟨h.1 "unknown" (by decide),
    h.2 "second" "unknown" ["first", "second"] 1
      ["none", "single", "deuce", "a few"] rfl (by rfl) (by rfl) (by decide)⟩

/-- C7 counterexample: field access by an unknown label raises the
AttributeError of line 118, but field-keyword construction with the same
unknown label raises the ValueError of `tuple(cls._fields).index(key)` at
line 102 — a different Python exception class, so the UnknownField error
kind does not cover both operations. -/
theorem c7_counterexample :
    getattr TestEnum ⟨0, ["zero", "none", "zilch"]⟩ "bogus" =
      .error .attributeErrorUnknownField ∧
    new TestEnum [] [("bogus", "zero")] = .error .valueErrorNotInTuple ∧
    PyError.attributeErrorUnknownField.pyclass ≠
      PyError.valueErrorNotInTuple.pyclass := by
  refine ⟨by rfl, by rfl, by decide⟩

/-- C7 (amended): field access by label fails with the UnknownField
AttributeError when the label is absent from the field list (line 118) and
when the type has no field list at all (line 112); field-keyword
construction instead fails with a ValueError when the label is absent from
a defined field list, and with a TypeError (`tuple(None)`) when the type
has no field list — error kinds different from the field-access path. -/
theorem c7_unknown_field_kinds (cls : EnumClass) :
    (∀ x key, cls._fields = none →
      getattr cls x key = .error .attributeErrorNoFields) ∧
    (∀ x key fs, cls._fields = some fs → key ∉ fs →
      getattr cls x key = .error .attributeErrorUnknownField) ∧
    (∀ tbl key v fs, cls._members = some tbl → cls._fields = some fs →
      key ∉ fs → new cls [] [(key, v)] = .error .valueErrorNotInTuple) ∧
    (∀ tbl key v, cls._members = some tbl → cls._fields = none →
      new cls [] [(key, v)] = .error .typeErrorNotIterable) := by
  refine ⟨?_, ?_, ?_, ?_⟩
  · intro x key hf
    simp [getattr, hf]
  · intro x key fs hf hkey
    have hnone : findIndex (fun f => f == key) fs = none :=
      findIndex_eq_none (fun f hfmem => by
        simp only [beq_eq_false_iff_ne]
        intro he
        exact hkey (he ▸ hfmem))
    simp [getattr, hf, hnone]
  · intro tbl key v fs hm hf hkey
    rw [new_single_kwarg hm hf]
    have hnone : findIndex (fun y => decide (y = key)) fs = none :=
      findIndex_eq_none (fun f hfmem => by
        simp only [decide_eq_false_iff_not]
        intro he
        exact hkey (he ▸ hfmem))
    have h1 : tupleIndex fs key = .error .valueErrorNotInTuple := by
      simp [tupleIndex, hnone]
    simp only [h1, except_bind_error]
  · intro tbl key v hm hf
    exact new_single_kwarg_no_fields hm hf key v

/-- Witness for C7: missing label on field access, missing `_fields` on
field access, missing label on keyword construction, and missing `_fields`
on keyword construction. -/
theorem c7_witness :
    getattr EmptyEnum ⟨0, []⟩ "first" = .error .attributeErrorNoFields ∧
    getattr TestEnum ⟨0, ["zero", "none", "zilch"]⟩ "third" =
      .error .attributeErrorUnknownField ∧
    new TestEnum [] [("third", "zero")] = .error .valueErrorNotInTuple ∧
    new { TestEnum with _fields := none } [] [("first", "zero")] =
      .error .typeErrorNotIterable :=
  ⟨(c7_unknown_field_kinds EmptyEnum).1 ⟨0, []⟩ "first" rfl,
   (c7_unknown_field_kinds TestEnum).2.1 ⟨0, ["zero", "none", "zilch"]⟩
     "third" ["first", "second"] rfl (by decide),
   (c7_unknown_field_kinds TestEnum).2.2.1 TestMembers "third" "zero"
     ["first", "second"] rfl rfl (by decide),
   (c7_unknown_field_kinds { TestEnum with _fields := none }).2.2.2
     TestMembers "first" "zero" rfl rfl⟩

/-- C1: on a concrete type with a defined member table in which no name
repeats across rows (under the comparison the type is configured with),
constructing from an in-range ordinal `i` yields a fresh instance whose
ordinal is `i` (with row `i` cached), and constructing from any name of row
`i` yields the very same result. -/
theorem c1_ordinal_name_agreement (cls : EnumClass) (tbl : List (List String))
    (hm : cls._members = some tbl)
    (hU : ∀ i : Nat, i < tbl.length → ∀ j : Nat, j < tbl.length →
      ∀ s ∈ tbl.getD i [], rowMatch cls s (tbl.getD j []) = true → i = j)
    (i : Nat) (row : List String) (hrow : tbl.get? i = some row) :
    new cls [Value.int (i : Int)] [] = .ok (.fresh ⟨(i : Int), row⟩) ∧
    ∀ s ∈ row,
      new cls [Value.str s] [] = new cls [Value.int (i : Int)] [] := by
  have hilt : i < tbl.length := (List.get?_eq_some.mp hrow).1
  have hint : new cls [Value.int (i : Int)] [] =
      .ok (.fresh ⟨(i : Int), row⟩) := by
    rw [new_single_arg hm]
    simp [_resolve_value, build, pyGet_ofNat hrow, except_bind_ok]
  refine ⟨hint, ?_⟩
  intro s hs
  have hgetD : tbl.getD i [] = row := by
    simp [List.getD_eq_getElem?_getD, ← List.get?_eq_getElem?, hrow]
  have hfi : findIndex (rowMatch cls s) tbl = some i := by
    apply findIndex_eq_some hrow (rowMatch_of_mem hs)
    intro j b hj hb
    cases hmb : rowMatch cls s b with
    | false => rfl
    | true =>
      exfalso
      have hjlt : j < tbl.length := (List.get?_eq_some.mp hb).1
      have hgDj : tbl.getD j [] = b := by
        simp [List.getD_eq_getElem?_getD, ← List.get?_eq_getElem?, hb]
      have hij : i = j :=
        hU i hilt j hjlt s (by rw [hgetD]; exact hs)
          (by rw [hgDj]; exact hmb)
      omega
  have hstr : new cls [Value.str s] [] = .ok (.fresh ⟨(i : Int), row⟩) := by
    rw [new_single_arg hm]
    simp [_resolve_value, hm, hfi, build, pyGet_ofNat hrow, except_bind_ok]
  rw [hstr, hint]

/-- Witness for C1 at row 2 of `TestEnum`: `TestEnum(2)` has ordinal 2 and
every name of row 2 constructs the same instance. -/
theorem c1_witness :
    new TestEnum [Value.int ((2 : Nat) : Int)] [] =
      .ok (.fresh ⟨((2 : Nat) : Int), ["two", "deuce", "a couple"]⟩) ∧
    ∀ s ∈ ["two", "deuce", "a couple"],
      new TestEnum [Value.str s] [] =
        new TestEnum [Value.int ((2 : Nat) : Int)] [] :=
  c1_ordinal_name_agreement TestEnum TestMembers rfl (by decide) 2
    ["two", "deuce", "a couple"] (by rfl)

/-- C9: on a case-insensitive type, a name whose casefolded form matches a
name of row `i` (and of no earlier row) constructs the instance with
ordinal `i`; on a case-sensitive type (the default), a name that is not
exactly equal to any member name — in particular one differing only in
case — fails with the NameNotFound AttributeError. -/
theorem c9_case_sensitivity (cls : EnumClass) (tbl : List (List String))
    (hm : cls._members = some tbl) :
    (cls._ignore_case = true →
      ∀ s i row, tbl.get? i = some row →
        (∃ m ∈ row, casefold m = casefold s) →
        (∀ j, j < i → ∀ m ∈ tbl.getD j [], casefold m ≠ casefold s) →
        new cls [Value.str s] [] = .ok (.fresh ⟨(i : Int), row⟩)) ∧
    (cls._ignore_case = false →
      ∀ s, (∀ row ∈ tbl, s ∉ row) →
        new cls [Value.str s] [] = .error .attributeErrorNameNotFound) := by
  constructor
  · intro hc s i row hrow hex hmin
    have hfi : findIndex (rowMatch cls s) tbl = some i := by
      apply findIndex_eq_some hrow (rowMatch_ci_of_exists hc hex)
      intro j b hj hb
      have hgDj : tbl.getD j [] = b := by
        simp [List.getD_eq_getElem?_getD, ← List.get?_eq_getElem?, hb]
      exact rowMatch_eq_false_ci hc
        (fun m hmem => hmin j hj m (by rw [hgDj]; exact hmem))
    rw [new_single_arg hm]
    simp [_resolve_value, hm, hfi, build, pyGet_ofNat hrow, except_bind_ok]
  · intro hc s hnot
    rw [new_single_arg hm]
    have hnone : findIndex (rowMatch cls s) tbl = none :=
      findIndex_eq_none (fun r hr => rowMatch_eq_false_cs hc (hnot r hr))
    simp [_resolve_value, hm, hnone, except_bind_error]

/-- Witness for C9 (the `test_ignore_case` case): `TestEnumIgnoreCase`
resolves the mixed-case name `dEuCe` to ordinal 2, while the case-sensitive
`TestEnum` rejects it. -/
theorem c9_witness :
    new TestEnumIgnoreCase [Value.str "dEuCe"] [] =
      .ok (.fresh ⟨((2 : Nat) : Int), ["two", "deuce", "a couple"]⟩) ∧
    new TestEnum [Value.str "dEuCe"] [] =
      .error .attributeErrorNameNotFound := by
  refine ⟨?_, ?_⟩
  · exact (c9_case_sensitivity TestEnumIgnoreCase TestMembers rfl).1 rfl
      "dEuCe" 2 ["two", "deuce", "a couple"] (by rfl) (by decide) (by decide)
  · exact (c9_case_sensitivity TestEnum TestMembers rfl).2 rfl "dEuCe"
      (by decide)

/-- C8: on a type with a defined member table, with the configured range
`[rs, re)` within the table (default the whole table) and the two effective
selectors resolving to series `c0`, `c1`, `_choices` returns one 2-tuple
per row ordinal in `[rs, re)`, the tuple at position `k` holding the
selected values of both series at ordinal `rs + k` in selector order; a
selector equal to `_enum` contributes the ordinal itself, and with no
`_choice_fields` configured the selectors default to the first two field
labels, making the projection exactly the first two columns of every row in
row order. -/
theorem c8_choice_projection (cls : EnumClass) (tbl : List (List String))
    (hm : cls._members = some tbl) (rs re : Nat)
    (hr : effRange cls tbl = (rs, re)) (hrs : rs ≤ re)
    (hre : re ≤ tbl.length) (f0 f1 : FKey)
    (hcf : effChoiceFields cls = .ok [f0, f1]) (c0 c1 : List ChoiceVal)
    (h0 : seriesFor tbl (effFields cls) f0 = .ok c0)
    (h1 : seriesFor tbl (effFields cls) f1 = .ok c1) :
    ∃ out, _choices cls = .ok out ∧ out.length = re - rs ∧
      (∀ k, k < re - rs → ∃ a b, c0.get? (rs + k) = some a ∧
        c1.get? (rs + k) = some b ∧ out.get? k = some (a, b)) ∧
      (f0 = FKey.str "_enum" →
        c0 = (List.range tbl.length).map ChoiceVal.int) ∧
      (f1 = FKey.str "_enum" →
        c1 = (List.range tbl.length).map ChoiceVal.int) ∧
      (cls._choice_fields = none →
        ∀ a b fs2, cls._fields = some (a :: b :: fs2) → a ≠ b →
          a ≠ "_enum" → b ≠ "_enum" → (∀ row ∈ tbl, 2 ≤ row.length) →
          c0 = tbl.map (fun r2 => ChoiceVal.str (r2.getD 0 "")) ∧
          c1 = tbl.map (fun r2 => ChoiceVal.str (r2.getD 1 ""))) := by
  have lc0 : c0.length = tbl.length := seriesFor_ok_length h0
  have lc1 : c1.length = tbl.length := seriesFor_ok_length h1
  refine ⟨List.zip (pySlice c0 rs re) (pySlice c1 rs re),
    ?_, ?_, ?_, ?_, ?_, ?_⟩
  · simp only [_choices, hm, hr, hcf, except_bind_ok]
    simp only [tupleMap, h0, h1, except_bind_ok]
    rfl
  · rw [List.length_zip, pySlice_length (by omega), pySlice_length (by omega)]
    simp
  · intro k hk
    have hlt : rs + k < re := by omega
    have hlt0 : rs + k < c0.length := by omega
    have hlt1 : rs + k < c1.length := by omega
    refine ⟨c0.get ⟨rs + k, hlt0⟩, c1.get ⟨rs + k, hlt1⟩,
      List.get?_eq_get hlt0, List.get?_eq_get hlt1, ?_⟩
    rw [List.get?_zip_eq_some]
    exact ⟨by rw [pySlice_get? hlt]; exact List.get?_eq_get hlt0,
      by rw [pySlice_get? hlt]; exact List.get?_eq_get hlt1⟩
  · intro hf
    rw [hf] at h0
    rw [seriesFor, if_pos rfl] at h0
    injection h0 with h0'
    exact h0'.symm
  · intro hf
    rw [hf] at h1
    rw [seriesFor, if_pos rfl] at h1
    injection h1 with h1'
    exact h1'.symm
  · intro hcfn a b fs2 hfields hab ha hb hrows
    have hF : effFields cls = FKey.str a :: FKey.str b :: fs2.map FKey.str := by
      simp [effFields, hfields]
    have hecf : effChoiceFields cls = .ok [FKey.str a, FKey.str b] := by
      simp [effChoiceFields, hF, hcfn, natGet, except_bind_ok]
    rw [hecf] at hcf
    injection hcf with hl
    injection hl with hf0 hl2
    injection hl2 with hf1 _
    subst hf0
    subst hf1
    rw [hF] at h0 h1
    have hcol0 : tupleMap (fun m => natGet m 0) tbl =
        .ok (tbl.map (fun r2 => r2.getD 0 "")) :=
      tupleMap_natGet (fun row hrow2 => by have := hrows row hrow2; omega)
    have hcol1 : tupleMap (fun m => natGet m 1) tbl =
        .ok (tbl.map (fun r2 => r2.getD 1 "")) :=
      tupleMap_natGet (fun row hrow2 => by have := hrows row hrow2; omega)
    have hne0 : FKey.str a ≠ FKey.str "_enum" := by simp [ha]
    have hne1 : FKey.str b ≠ FKey.str "_enum" := by simp [hb]
    have hidx0 : tupleIndex
        (FKey.str a :: FKey.str b :: fs2.map FKey.str) (FKey.str a) =
        .ok 0 := by
      simp [tupleIndex, findIndex]
    have hidx1 : tupleIndex
        (FKey.str a :: FKey.str b :: fs2.map FKey.str) (FKey.str b) =
        .ok 1 := by
      simp [tupleIndex, findIndex, hab]
    rw [seriesFor, if_neg hne0, hidx0, except_bind_ok, hcol0,
      except_bind_ok] at h0
    rw [seriesFor, if_neg hne1, hidx1, except_bind_ok, hcol1,
      except_bind_ok] at h1
    injection h0 with h0'
    injection h1 with h1'
    constructor
    · rw [← h0', List.map_map]
      rfl
    · rw [← h1', List.map_map]
      rfl

/-- Witness for C8 at `SampleChoicesEnum._choices()` (docstring lines
57-61): selectors `_enum` and `french`, range `[1, 3)` over the 3-row
table. -/
theorem c8_witness :
    ∃ out, _choices SampleChoicesEnum = .ok out ∧ out.length = 3 - 1 ∧
      (∀ k, k < 3 - 1 → ∃ a b,
        [ChoiceVal.int 0, ChoiceVal.int 1, ChoiceVal.int 2].get? (1 + k) =
          some a ∧
        [ChoiceVal.str "zero", ChoiceVal.str "une",
          ChoiceVal.str "deux"].get? (1 + k) = some b ∧
        out.get? k = some (a, b)) ∧
      (FKey.str "_enum" = FKey.str "_enum" →
        [ChoiceVal.int 0, ChoiceVal.int 1, ChoiceVal.int 2] =
          (List.range SampleMembers.length).map ChoiceVal.int) ∧
      (FKey.str "french" = FKey.str "_enum" →
        [ChoiceVal.str "zero", ChoiceVal.str "une", ChoiceVal.str "deux"] =
          (List.range SampleMembers.length).map ChoiceVal.int) ∧
      (SampleChoicesEnum._choice_fields = none →
        ∀ a b fs2, SampleChoicesEnum._fields = some (a :: b :: fs2) →
          a ≠ b → a ≠ "_enum" → b ≠ "_enum" →
          (∀ row ∈ SampleMembers, 2 ≤ row.length) →
          [ChoiceVal.int 0, ChoiceVal.int 1, ChoiceVal.int 2] =
            SampleMembers.map (fun r2 => ChoiceVal.str (r2.getD 0 "")) ∧
          [ChoiceVal.str "zero", ChoiceVal.str "une", ChoiceVal.str "deux"] =
            SampleMembers.map (fun r2 => ChoiceVal.str (r2.getD 1 ""))) :=
  c8_choice_projection SampleChoicesEnum SampleMembers rfl 1 3 rfl
    (by decide) (by decide) (FKey.str "_enum") (FKey.str "french")
    (by rfl) [ChoiceVal.int 0, ChoiceVal.int 1, ChoiceVal.int 2]
    [ChoiceVal.str "zero", ChoiceVal.str "une", ChoiceVal.str "deux"]
    (by rfl) (by rfl)

end Multienum
